import Mathlib

/-!
Verification of the bc-scripts bulk-export tools (orders.py, catalog.py,
customers.py): a shallow embedding of the JSON data model, the retrying HTTP
fetch layer, the two pagination walkers, the sub-resource enrichment
orchestrator and the flattening and column-ordering engine, with theorems
settling the spec claims. HTTP itself is external: every embedded fetch takes
an oracle describing what the remote endpoint returns on each attempt or page.
-/

/-- JSON values as delivered by the remote API and processed by the scripts.
Python scalars (None, bool, int, str) and containers (list, dict) are covered;
floats do not occur in the claims under study. Dicts are insertion-ordered
association lists, as in Python 3.7+. -/
inductive Value where
  | null
  | bool (b : Bool)
  | int (n : Int)
  | str (s : String)
  | arr (elems : List Value)
  | obj (fields : List (String × Value))

/-- One decoded JSON object: an insertion-ordered mapping from field name to
value, the shape every row-level dict takes in the scripts. -/
abbrev Record := List (String × Value)

/-- Python truthiness of a JSON-decoded value: None, False, 0, empty string,
empty list and empty dict are falsy, everything else truthy. -/
def Value.truthy : Value → Bool
  | .null => false
  | .bool b => b
  | .int n => decide (n ≠ 0)
  | .str s =>
    match s.data with
    | [] => false
    | _ :: _ => true
  | .arr [] => false
  | .arr (_ :: _) => true
  | .obj [] => false
  | .obj (_ :: _) => true

/-- Hex digit character for JSON control-character escapes. -/
def hexDigit (n : Nat) : Char :=
  if n < 10 then Char.ofNat (48 + n) else Char.ofNat (87 + n)

/-- JSON string escaping for one character, as json.dumps renders it
(quote, backslash, and control characters; ensure_ascii differences do not
matter for the claims, which involve only ASCII data). -/
def jsonEscapeChar (c : Char) : List Char :=
  if c = '"' then ['\\', '"']
  else if c = '\\' then ['\\', '\\']
  else if c = '\n' then ['\\', 'n']
  else if c = '\t' then ['\\', 't']
  else if c = '\r' then ['\\', 'r']
  else if c.toNat < 32 then
    ['\\', 'u', '0', '0', hexDigit (c.toNat / 16), hexDigit (c.toNat % 16)]
  else [c]

/-- JSON string escaping, character by character. -/
def jsonEscape (s : String) : String := String.mk (s.data.flatMap jsonEscapeChar)

mutual

/-- Model of json.dumps with separators (",", ":"): the compact single-line
serialization both scripts use for nested values. Dict keys keep insertion
order, as json.dumps does without sort_keys. -/
def dumpVal : Value → String
  | .null => "null"
  | .bool true => "true"
  | .bool false => "false"
  | .int n => toString n
  | .str s => "\"" ++ jsonEscape s ++ "\""
  | .arr es => "[" ++ dumpElems es ++ "]"
  | .obj fs => "\x7b" ++ dumpFields fs ++ "\x7d"

/-- Comma-separated serialization of a JSON array body. -/
def dumpElems : List Value → String
  | [] => ""
  | [v] => dumpVal v
  | v :: vs => dumpVal v ++ "," ++ dumpElems vs

/-- Comma-separated serialization of a JSON object body. -/
def dumpFields : List (String × Value) → String
  | [] => ""
  | [(k, v)] => "\"" ++ jsonEscape k ++ "\":" ++ dumpVal v
  | (k, v) :: fs => "\"" ++ jsonEscape k ++ "\":" ++ dumpVal v ++ "," ++ dumpFields fs

end

/-- dict.get: the value bound to a key, None-as-none when absent. Python dicts
have unique keys, so the first binding is the binding. -/
def getField (r : Record) (k : String) : Option Value :=
  match r with
  | [] => none
  | (k2, v) :: rest => if k2 = k then some v else getField rest k

/-- dict assignment d[k] = v: replaces the value in place when the key exists
(keeping its position, as Python does) and appends a new binding otherwise. -/
def setField (r : Record) (k : String) (v : Value) : Record :=
  match r with
  | [] => [(k, v)]
  | (k2, v2) :: rest =>
    if k2 = k then (k2, v) :: rest else (k2, v2) :: setField rest k v

/-- dict.update(d2): assign every binding of d2 into r, left to right. -/
def updateFields (r : Record) (d : Record) : Record :=
  d.foldl (fun acc kv => setField acc kv.1 kv.2) r

/-- The Python idiom `x.get(k) or []`: the stored value when truthy, an empty
list when the key is missing or its value is falsy. -/
def orEmptyList (v : Option Value) : Value :=
  match v with
  | some x => if x.truthy then x else .arr []
  | none => .arr []

/-- dict.get with None collapsing: Python code of the form
`v = it.get(k)` followed by `if v is None` treats a stored JSON null exactly
like a missing key, so both map to none here. -/
def getNonNull (r : Record) (k : String) : Option Value :=
  match getField r k with
  | some .null => none
  | some v => some v
  | none => none

/-- Python int() on the identifier values the scripts feed it. Identifiers are
modelled as JSON integers (int() of other shapes either raises, which no claim
exercises, or is a numeric string the model does not need). -/
def Value.asInt : Value → Option Int
  | .int n => some n
  | .bool b => some (if b then 1 else 0)
  | _ => none

/-- Flatten one cell: nested dicts and lists serialize to their compact JSON
text, scalars pass through unchanged — the common core of normalize_row,
normalize_product and the main loop of normalize_customer_row. -/
def normCell (v : Value) : Value :=
  match v with
  | .obj _ => .str (dumpVal v)
  | .arr _ => .str (dumpVal v)
  | _ => v

/-- The dict-building loop `out = {}; for k, v in obj.items(): out[k] = ...`
shared verbatim by orders.normalize_row and catalog.normalize_product. -/
def dictMapNorm : List (String × Value) → Record → Record
  | [], out => out
  | (k, v) :: rest, out => dictMapNorm rest (setField out k (normCell v))

/-- A cell is flat when it is not a nested container. -/
def Value.isFlatCell : Value → Bool
  | .obj _ => false
  | .arr _ => false
  | _ => true

/-- Pagination metadata of a v3 response: meta.pagination with every field
optional, matching the chains of .get(...) defaults in the scripts. -/
structure Pagination where
  current_page : Option Nat
  total_pages : Option Nat
  total : Option Nat

/-- A decoded v3 response body: the data array plus optional meta.pagination
(none models a body with no pagination object, which the scripts default
field-by-field to the current loop page). -/
structure Payload where
  data : List Record
  pagination : Option Pagination

/-- pagination.get("current_page", page). -/
def Payload.currentPage (p : Payload) (page : Nat) : Nat :=
  match p.pagination with
  | some pg => pg.current_page.getD page
  | none => page

/-- pagination.get("total_pages", page). -/
def Payload.totalPages (p : Payload) (page : Nat) : Nat :=
  match p.pagination with
  | some pg => pg.total_pages.getD page
  | none => page

namespace Orders

/-- orders.py LIMIT: the requested page size. -/
def LIMIT : Nat := 250

/-- orders.py MAX_RETRIES. -/
def MAX_RETRIES : Nat := 8

/-- The Retry-After header of a 429 response as request_with_backoff reads it:
absent covers a missing or empty (falsy) header, nonNumeric a header on which
float() raises ValueError, numeric a parsed value (floats as rationals). -/
inductive RetryAfter where
  | absent
  | nonNumeric
  | numeric (q : ℚ)

/-- What one HTTP attempt inside request_with_backoff produces: a response
with a status code, or a requests Timeout / ConnectionError. -/
inductive AttemptOutcome where
  | resp (status : Nat) (retryAfter : RetryAfter)
  | netErr

/-- How request_with_backoff ends: a returned response, an HTTPError from
raise_for_status, the re-raised last network exception (tagged with the
attempt that recorded it), or the generic RuntimeError raised when the retry
budget is gone and no network exception was ever stored — that RuntimeError
names the URL and retry count but carries no response. -/
inductive FetchOutcome where
  | success (status : Nat) (attempt : Nat)
  | httpError (status : Nat) (attempt : Nat)
  | exhaustedExc (attempt : Nat)
  | exhaustedGeneric
  deriving DecidableEq

/-- Observable trace of one request_with_backoff call: its final outcome, the
number of HTTP requests issued, and the sleep durations in order. -/
structure FetchRun where
  outcome : FetchOutcome
  requests : Nat
  sleeps : List ℚ

/-- The exponential schedule BASE_BACKOFF * 2 ** (attempt - 1) with
BASE_BACKOFF = 1.0. -/
def backoff (attempt : Nat) : ℚ := 2 ^ (attempt - 1)

/-- The retry loop of orders.request_with_backoff. `remaining` counts the
attempts the for-loop still has (8 at entry), `attempt` is the 1-based loop
counter, `lastExc` records the attempt of the most recent network exception
(the last_exc variable). `oracle` gives each attempt's result and `jitter`
gives the value random.uniform(0, 0.25 * sleep_s) drew for that attempt. -/
def requestWithBackoffGo (oracle : Nat → AttemptOutcome) (jitter : Nat → ℚ) :
    Nat → Nat → Option Nat → FetchRun
  | 0, _, lastExc =>
    { outcome :=
        match lastExc with
        | some a => .exhaustedExc a
        | none => .exhaustedGeneric
      requests := 0
      sleeps := [] }
  | remaining + 1, attempt, lastExc =>
    match oracle attempt with
    | .netErr =>
      let s := min (backoff attempt + jitter attempt) 60
      let r := requestWithBackoffGo oracle jitter remaining (attempt + 1) (some attempt)
      { outcome := r.outcome, requests := r.requests + 1, sleeps := s :: r.sleeps }
    | .resp status ra =>
      if status = 429 then
        let base :=
          match ra with
          | .numeric q => q
          | _ => backoff attempt
        let s := min (base + jitter attempt) 60
        let r := requestWithBackoffGo oracle jitter remaining (attempt + 1) lastExc
        { outcome := r.outcome, requests := r.requests + 1, sleeps := s :: r.sleeps }
      else if status = 500 ∨ status = 502 ∨ status = 503 ∨ status = 504 then
        let s := min (backoff attempt + jitter attempt) 60
        let r := requestWithBackoffGo oracle jitter remaining (attempt + 1) lastExc
        { outcome := r.outcome, requests := r.requests + 1, sleeps := s :: r.sleeps }
      else if 400 ≤ status ∧ status < 600 then
        { outcome := .httpError status attempt, requests := 1, sleeps := [] }
      else
        { outcome := .success status attempt, requests := 1, sleeps := [] }

/-- orders.request_with_backoff over an attempt oracle and a jitter draw. -/
def request_with_backoff (oracle : Nat → AttemptOutcome) (jitter : Nat → ℚ) : FetchRun :=
  requestWithBackoffGo oracle jitter MAX_RETRIES 1 none

/-- The attempt results request_with_backoff retries: 429, the four transient
server statuses it checks, and network errors. -/
def isRetryable : AttemptOutcome → Bool
  | .netErr => true
  | .resp status _ =>
    decide (status = 429 ∨ status = 500 ∨ status = 502 ∨ status = 503 ∨ status = 504)

/-- The attempt (if any) of the last network error among the `remaining`
attempts starting at `attempt` — what last_exc holds when the loop ends. -/
def lastNetErrIn (oracle : Nat → AttemptOutcome) : Nat → Nat → Option Nat
  | 0, _ => none
  | remaining + 1, attempt =>
    match lastNetErrIn oracle remaining (attempt + 1) with
    | some a => some a
    | none =>
      match oracle attempt with
      | .netErr => some attempt
      | _ => none

/-- The error raised once the loop exhausts: the stored network exception when
one exists, else the generic RuntimeError. -/
def exhaustOutcome : Option Nat → FetchOutcome
  | some a => .exhaustedExc a
  | none => .exhaustedGeneric

/-- The page loop of orders.fetch_all_orders. The server oracle gives the
list body `/v2/orders?limit=250&page=N` returns for each page (the HTTP retry
layer below it is request_with_backoff; the X-Total-Count header only feeds
the progress bar). Returns the accumulated orders and the visited page
numbers; none when the fuel runs out before a short or empty page appears. -/
def ordersPagesGo (server : Nat → List Record) : Nat → Nat → Option (List Record × List Nat)
  | 0, _ => none
  | fuel + 1, page =>
    let data := server page
    if data.isEmpty then some ([], [page])
    else if data.length < LIMIT then some (data, [page])
    else
      match ordersPagesGo server fuel (page + 1) with
      | none => none
      | some (rest, pages) => some (data ++ rest, page :: pages)

/-- orders.fetch_all_orders: walk pages from 1 until a short or empty page. -/
def fetch_all_orders (server : Nat → List Record) (fuel : Nat) :
    Option (List Record × List Nat) :=
  ordersPagesGo server fuel 1

/-- The flattening loop of orders.normalize_row. -/
def normalize_row (obj : Record) : Record := dictMapNorm obj []

/-- The per-order worker inside orders.build_rows_one_per_order: fetch the
order's products (fetchProducts oracle stands for fetch_order_products),
flatten the order, and attach products_json. none models the TypeError
int(None) raises when the id is absent, which aborts the run. -/
def worker (fetchProducts : Int → List Value) (order : Record) : Option Record :=
  match getField order "id" with
  | some (.int oid) =>
    some (setField (normalize_row order) "products_json"
      (.str (dumpVal (.arr (fetchProducts oid)))))
  | _ => none

/-- The sort key int(r.get("id") or 0) of the final re-sort: 0 when the id is
missing or falsy, the integer value otherwise; none models int() raising,
which the surrounding try/except turns into leaving the rows unsorted. -/
def rowSortKey (r : Record) : Option Int :=
  match getField r "id" with
  | none => some 0
  | some v => if v.truthy then v.asInt else some 0

/-- The id key with its post-try/except default. -/
def rowKey (r : Record) : Int := (rowSortKey r).getD 0

/-- The collection and re-sort stage of orders.build_rows_one_per_order:
`completed` is the worker results in as_completed (completion) order; the
final stable sort by parent id runs unless some key computation raises.
insertionSort is extensionally the same list as any stable sort by key,
hence as Python list.sort. -/
def build_rows_one_per_order (completed : List Record) : List Record :=
  if completed.all (fun r => (rowSortKey r).isSome) then
    List.insertionSort (fun a b => rowKey a ≤ rowKey b) completed
  else completed

end Orders

namespace Catalog

/-- catalog.py LIMIT. -/
def LIMIT : Nat := 250

/-- catalog.normalize_product: the same flattening loop as
orders.normalize_row, keeping incoming key order. -/
def normalize_product (product : Record) : Record := dictMapNorm product []

/-- The page loop of catalog.fetch_all_products. The server oracle gives the
decoded body of /v3/catalog/products?limit=250&page=N (raise_for_status on a
non-2xx aborts the run and is outside these claims). Returns the accumulated
normalized products and the visited pages; none if the fuel runs out first. -/
def catalogGo (server : Nat → Payload) : Nat → Nat → Option (List Record × List Nat)
  | 0, _ => none
  | fuel + 1, page =>
    let payload := server page
    let data := payload.data
    if data.isEmpty then some ([], [page])
    else
      let products := data.map normalize_product
      if payload.totalPages page ≤ payload.currentPage page then some (products, [page])
      else
        match catalogGo server fuel (page + 1) with
        | none => none
        | some (rest, pages) => some (products ++ rest, page :: pages)

/-- catalog.fetch_all_products: walk metadata-driven pages from 1. -/
def fetch_all_products (server : Nat → Payload) (fuel : Nat) :
    Option (List Record × List Nat) :=
  catalogGo server fuel 1

end Catalog

namespace Customers

/-- customers.py LIMIT. -/
def LIMIT : Nat := 250

/-- customers.py MAX_429_RETRIES. -/
def MAX_429_RETRIES : Nat := 20

/-- customers.py DEFAULT_RETRY_AFTER (seconds, when the header is missing). -/
def DEFAULT_RETRY_AFTER : Nat := 5

/-- customers.py MAX_ADDRESSES. -/
def MAX_ADDRESSES : Nat := 50

/-- customers.py MAX_ATTRIBUTES. -/
def MAX_ATTRIBUTES : Nat := 50

/-- customers.py ID_IN_CHUNK. -/
def ID_IN_CHUNK : Nat := 50

/-- customers.py BACK_COLUMNS_ORDER: the columns forced to the back of the
CSV, in their declared order. -/
def BACK_COLUMNS_ORDER : List String :=
  ["address_count", "addresses", "attribute_count", "attributes", "attribute_values"]

/-- The Retry-After header as get_with_429_retry reads it: a nonempty digit
string after strip() (digits n), any other nonempty header (nonDigits), or a
missing/empty header (absent). -/
inductive CRetryAfter where
  | absent
  | nonDigits
  | digits (n : Nat)
  deriving DecidableEq

/-- One response as seen by get_with_429_retry: status plus Retry-After. -/
structure CResp where
  status : Nat
  retryAfter : CRetryAfter
  deriving DecidableEq

/-- How get_with_429_retry ends: a non-429 response returned to the caller
(tagged with the attempt that produced it), or the HTTPError raised when the
429 retry budget is exceeded, carrying the last 429 response. -/
inductive COutcome where
  | returned (resp : CResp) (attempt : Nat)
  | exhausted (resp : CResp)
  deriving DecidableEq

/-- Observable trace of one get_with_429_retry call: outcome, number of HTTP
requests issued, and the integer sleep durations in order. -/
structure CRun where
  outcome : COutcome
  requests : Nat
  sleeps : List Nat

/-- The while-loop of customers.get_with_429_retry. `budget` is the number of
429 retries still allowed (MAX_429_RETRIES at entry), `attempt` the 1-based
count of requests issued; the retries variable of the source equals `attempt`
just after the attempt-th 429. A non-429 response returns immediately; a 429
with the budget gone raises; otherwise the loop sleeps — the exact header
value when Retry-After is a digit string, min(DEFAULT_RETRY_AFTER +
(retries - 1), 30) otherwise — and tries again. -/
def getWith429Go (oracle : Nat → CResp) : Nat → Nat → CRun
  | 0, attempt =>
    let resp := oracle attempt
    if resp.status ≠ 429 then { outcome := .returned resp attempt, requests := 1, sleeps := [] }
    else { outcome := .exhausted resp, requests := 1, sleeps := [] }
  | budget + 1, attempt =>
    let resp := oracle attempt
    if resp.status ≠ 429 then { outcome := .returned resp attempt, requests := 1, sleeps := [] }
    else
      let s :=
        match resp.retryAfter with
        | .digits n => n
        | _ => min (DEFAULT_RETRY_AFTER + (attempt - 1)) 30
      let r := getWith429Go oracle budget (attempt + 1)
      { outcome := r.outcome, requests := r.requests + 1, sleeps := s :: r.sleeps }

/-- customers.get_with_429_retry over a response oracle. -/
def get_with_429_retry (oracle : Nat → CResp) : CRun :=
  getWith429Go oracle MAX_429_RETRIES 1

/-- The HTTPError raise_for_status raises inside fetch_paginated, as
fetch_attribute_values_for_customers inspects it: e.response.status_code,
or none when e.response is None. -/
structure HttpErr where
  status : Option Nat
  deriving DecidableEq

/-- customers.chunked_ints via an explicit fuel (the list length) so that the
recursion is structural; n = ID_IN_CHUNK = 50 at every call site. -/
def chunksGo (n : Nat) : Nat → List Int → List (List Int)
  | 0, _ => []
  | _, [] => []
  | fuel + 1, vs => vs.take n :: chunksGo n fuel (vs.drop n)

/-- customers.chunked_ints: split values into chunks of n. -/
def chunked_ints (values : List Int) (n : Nat) : List (List Int) :=
  chunksGo n values.length values

/-- item.get("customer_id") with the source's None skip; foreign keys are
modelled as JSON integers (int() of a non-numeric value raises, which no
claim exercises). -/
def itemCustomerId (item : Record) : Option Int :=
  match getField item "customer_id" with
  | some (.int n) => some n
  | _ => none

/-- grouped.setdefault(cid, []).append(item): first-seen key order, items in
arrival order. -/
def addToGroup (g : List (Int × List Record)) (cid : Int) (item : Record) :
    List (Int × List Record) :=
  match g with
  | [] => [(cid, [item])]
  | (c, items) :: rest =>
    if c = cid then (c, items ++ [item]) :: rest
    else (c, items) :: addToGroup rest cid item

/-- customers.group_by_customer_id with key="customer_id". -/
def group_by_customer_id (items : List Record) : List (Int × List Record) :=
  items.foldl
    (fun g item =>
      match itemCustomerId item with
      | some cid => addToGroup g cid item
      | none => g)
    []

/-- The chunk loop of customers.fetch_attribute_values_for_customers. The
fetchChunk oracle stands for fetch_paginated on the attribute-values endpoint
filtered by one id chunk: its rows on success, the HTTPError raise_for_status
raised otherwise. A 403/404 error makes the whole function return the empty
mapping (after the printed warning); any other error propagates. -/
def fetchValuesGo (fetchChunk : List Int → Except HttpErr (List Record)) :
    List (List Int) → List Record → Except HttpErr (List (Int × List Record))
  | [], acc => .ok (group_by_customer_id acc)
  | chunk :: rest, acc =>
    match fetchChunk chunk with
    | .ok rows => fetchValuesGo fetchChunk rest (acc ++ rows)
    | .error e =>
      if e.status = some 403 ∨ e.status = some 404 then .ok []
      else .error e

/-- customers.fetch_attribute_values_for_customers over a chunk oracle. -/
def fetch_attribute_values_for_customers
    (fetchChunk : List Int → Except HttpErr (List Record)) (customer_ids : List Int) :
    Except HttpErr (List (Int × List Record)) :=
  if customer_ids.isEmpty then .ok []
  else fetchValuesGo fetchChunk (chunked_ints customer_ids ID_IN_CHUNK) []

/-- The first chunk error the loop would encounter, scanning chunks in
order. -/
def firstFetchError (fetchChunk : List Int → Except HttpErr (List Record)) :
    List (List Int) → Option HttpErr
  | [] => none
  | chunk :: rest =>
    match fetchChunk chunk with
    | .ok _ => firstFetchError fetchChunk rest
    | .error e => some e

end Customers

namespace Customers

/-- customers.json_cell: compact JSON text with ensure_ascii=False. -/
def json_cell (v : Value) : String := dumpVal v

/-- The list sub-resource fields handled separately by
normalize_customer_row. -/
def DEFERRED : List String := ["addresses", "attributes", "attribute_values"]

/-- The top-level loop of normalize_customer_row: copy every non-deferred
field into out, serializing nested containers. -/
def normMain : List (String × Value) → Record → Record
  | [], out => out
  | (k, v) :: rest, out =>
    if k ∈ DEFERRED then normMain rest out
    else normMain rest (setField out k (normCell v))

/-- customers.split_list_of_dicts: columns pfx1_field, pfx2_field, ... from
the first max_items sub-entities; non-dict entries are skipped, nested values
serialize to JSON text. -/
def split_list_of_dicts (pfx : String) (items : List Value) (max_items : Nat) : Record :=
  ((items.take max_items).enum).foldl
    (fun out p =>
      match p.2 with
      | .obj fields =>
        fields.foldl
          (fun out2 kv =>
            setField out2 (pfx ++ toString (p.1 + 1) ++ "_" ++ kv.1) (normCell kv.2))
          out
      | _ => out)
    []

/-- attribute_id -> attribute_name lookup, the mapping
fetch_attribute_definitions builds once per run. -/
def lookupName (m : List (Int × String)) (n : Int) : Option String :=
  match m with
  | [] => none
  | (k, v) :: rest => if k = n then some v else lookupName rest n

/-- customers.canonicalize_attribute_items: bring both upstream attribute
shapes to the canonical attribute_id / attribute_name / value / raw record,
resolving a missing name through the id -> name mapping. Non-dict entries
are skipped. -/
def canonicalize_attribute_items (items : List Value) (attr_id_to_name : List (Int × String)) :
    List Record :=
  items.filterMap fun it =>
    match it with
    | .obj fields =>
      let aid : Option Value :=
        match getNonNull fields "attribute_id" with
        | some v => some v
        | none => getNonNull fields "id"
      let name : Option Value :=
        match getNonNull fields "name", aid with
        | some v, _ => some v
        | none, some (.int n) => (lookupName attr_id_to_name n).map Value.str
        | none, _ => none
      let val : Option Value :=
        match getNonNull fields "attribute_value" with
        | some v => some v
        | none => getNonNull fields "value"
      some
        [("attribute_id", aid.getD .null), ("attribute_name", name.getD .null),
         ("value", val.getD .null), ("raw", .obj fields)]
    | _ => none

/-- customers.split_attributes: attribute{n}_id/name/value/raw columns from
the canonicalized items, up to max_items. -/
def split_attributes (items : List Value) (attr_id_to_name : List (Int × String))
    (max_items : Nat) : Record :=
  let canon := canonicalize_attribute_items items attr_id_to_name
  ((canon.take max_items).enum).foldl
    (fun out p =>
      let a := p.2
      let i := toString (p.1 + 1)
      let o1 := setField out ("attribute" ++ i ++ "_id") ((getField a "attribute_id").getD .null)
      let o2 := setField o1 ("attribute" ++ i ++ "_name") ((getField a "attribute_name").getD .null)
      let o3 := setField o2 ("attribute" ++ i ++ "_value") ((getField a "value").getD .null)
      setField o3 ("attribute" ++ i ++ "_raw") (.str (json_cell ((getField a "raw").getD .null))))
    []

/-- customers.normalize_customer_row: non-deferred fields flattened in order,
address and attribute split columns, then the full serialized sub-lists under
their own keys whenever the incoming record carried those keys. -/
def normalize_customer_row (customer : Record) (attr_id_to_name : List (Int × String)) :
    Record :=
  let addresses := orEmptyList (getField customer "addresses")
  let attributes := orEmptyList (getField customer "attributes")
  let attribute_values := orEmptyList (getField customer "attribute_values")
  let out0 := normMain customer []
  let out1 :=
    match addresses with
    | .arr (a :: as) => updateFields out0 (split_list_of_dicts "address" (a :: as) MAX_ADDRESSES)
    | _ => out0
  let attr_source :=
    match attributes with
    | .arr (a :: as) => Value.arr (a :: as)
    | _ => attribute_values
  let out2 :=
    match attr_source with
    | .arr (a :: as) => updateFields out1 (split_attributes (a :: as) attr_id_to_name MAX_ATTRIBUTES)
    | _ => out1
  let out3 :=
    if (getField customer "addresses").isSome
    then setField out2 "addresses" (.str (json_cell addresses)) else out2
  let out4 :=
    if (getField customer "attributes").isSome
    then setField out3 "attributes" (.str (json_cell attributes)) else out3
  if (getField customer "attribute_values").isSome
  then setField out4 "attribute_values" (.str (json_cell attribute_values)) else out4

end Customers

namespace Customers

/-- Code-point-lexicographic strict comparison of character lists: how Python
compares str values. -/
def charListLt : List Char → List Char → Bool
  | [], [] => false
  | [], _ :: _ => true
  | _ :: _, [] => false
  | a :: as, b :: bs => if a < b then true else if b < a then false else charListLt as bs

/-- Python str strict comparison. -/
def pyStrLt (a b : String) : Bool := charListLt a.data b.data

/-- The regex match ^pfx(\d+)_(.+)$ of sort_split_keys.key_fn: the prefixed
key parsed into (int(digits), field). The digit run is maximal and must be
followed by an underscore and a nonempty field, exactly as the greedy regex
matches. -/
def splitKeyParse (pfx : String) (k : String) : Option (Nat × String) :=
  let pl := pfx.data.length
  if k.data.take pl = pfx.data then
    let rest := k.data.drop pl
    let ds := rest.takeWhile Char.isDigit
    match ds, rest.drop ds.length with
    | [], _ => none
    | _ :: _, '_' :: c :: cs => some ((ds.foldl (fun acc d => acc * 10 + (d.toNat - 48)) 0), String.mk (c :: cs))
    | _, _ => none
  else none

/-- sort_split_keys.key_fn: (index, field) for a matching key, (10 ** 9, key)
for a non-matching one. -/
def splitSortKey (pfx : String) (k : String) : Nat × String :=
  match splitKeyParse pfx k with
  | some p => p
  | none => (10 ^ 9, k)

/-- The re.match(r"^pfx\d+_", k) test build_fieldnames uses to pick split
columns: the prefix, one or more digits, then an underscore. -/
def matchesSplit (pfx : String) (k : String) : Bool :=
  let pl := pfx.data.length
  if k.data.take pl = pfx.data then
    let rest := k.data.drop pl
    let ds := rest.takeWhile Char.isDigit
    match ds, rest.drop ds.length with
    | _ :: _, '_' :: _ => true
    | _, _ => false
  else false

/-- Python tuple comparison (Nat, str) <= (Nat, str): first components by
numeric order, ties by code-point-lexicographic field order. -/
def keyLe (a b : Nat × String) : Bool :=
  decide (a.1 < b.1) || (decide (a.1 = b.1) && (pyStrLt a.2 b.2 || decide (a.2 = b.2)))

/-- customers.sort_split_keys: Python sorted(keys, key=key_fn). insertionSort
is stable and agrees elementwise with any stable sort under the same total
preorder, hence with Python sorted. -/
def sort_split_keys (keys : List String) (kind_pfx : String) : List String :=
  List.insertionSort
    (fun a b => keyLe (splitSortKey kind_pfx a) (splitSortKey kind_pfx b) = true) keys

/-- First-seen key order across the row stream: the all_keys_in_order loop of
build_fieldnames. -/
def firstSeenKeys (rows : List Record) : List String :=
  (rows.flatMap (fun r => r.map Prod.fst)).foldl
    (fun acc k => if k ∈ acc then acc else acc ++ [k]) []

/-- customers.build_fieldnames: normal columns in first-seen order, then the
address split columns sorted by index and field, then the attribute split
columns likewise, then the back columns in their declared order, then any
leftovers. -/
def build_fieldnames (rows : List Record) : List String :=
  let all_keys := firstSeenKeys rows
  let addr_split := all_keys.filter (fun k => matchesSplit "address" k)
  let attr_split := all_keys.filter (fun k => matchesSplit "attribute" k)
  let addr_sorted := sort_split_keys addr_split "address"
  let attr_sorted := sort_split_keys attr_split "attribute"
  let normal_cols := all_keys.filter
    (fun k => !(decide (k ∈ BACK_COLUMNS_ORDER) || decide (k ∈ addr_split) || decide (k ∈ attr_split)))
  let back_cols := BACK_COLUMNS_ORDER.filter (fun k => decide (k ∈ all_keys))
  let final := normal_cols ++ addr_sorted ++ attr_sorted ++ back_cols
  let leftovers := all_keys.filter (fun k => !(decide (k ∈ final)))
  final ++ leftovers

/-- The truncation test for addresses: isinstance(address_count, int) and the
included addresses a list shorter than that count. -/
def needsAddr (c : Record) : Bool :=
  match getField c "address_count", orEmptyList (getField c "addresses") with
  | some (.int n), .arr included => decide ((included.length : Int) < n)
  | _, _ => false

/-- The truncation test for attributes. -/
def needsAttr (c : Record) : Bool :=
  match getField c "attribute_count", orEmptyList (getField c "attributes") with
  | some (.int n), .arr included => decide ((included.length : Int) < n)
  | _, _ => false

/-- The ids of the customers on one page passing a truncation test; customers
without an id are skipped, as in the source. -/
def needIds (p : Record → Bool) (customers : List Record) : List Int :=
  customers.filterMap fun c =>
    match getField c "id" with
    | some (.int cid) => if p c then some cid else none
    | _ => none

/-- cid in map lookup of the grouped supplemental data. -/
def lookupGroup (m : List (Int × List Record)) (cid : Int) : Option (List Record) :=
  match m with
  | [] => none
  | (k, v) :: rest => if k = cid then some v else lookupGroup rest cid

/-- The per-customer body of the main page loop: merge any bulk-fetched
addresses / attribute values onto the record, then flatten it. Customers
without an id are skipped (continue). -/
def processCustomer (attr_id_to_name : List (Int × String))
    (addr_map attr_map : List (Int × List Record)) (c : Record) : Option Record :=
  match getField c "id" with
  | some (.int cid) =>
    let c1 :=
      match lookupGroup addr_map cid with
      | some items => setField c "addresses" (.arr (items.map Value.obj))
      | none => c
    let c2 :=
      match lookupGroup attr_map cid with
      | some items => setField c1 "attribute_values" (.arr (items.map Value.obj))
      | none => c1
    some (normalize_customer_row c2 attr_id_to_name)
  | _ => none

/-- The page loop of customers.fetch_all_customers_with_subresources. The
server oracle gives the decoded body per page; fetchAddrs and fetchAttrVals
stand for fetch_addresses_for_customers and (the successful result of)
fetch_attribute_values_for_customers; attr_id_to_name for the
fetch_attribute_definitions result. Returns the flattened rows and visited
pages; none if the fuel runs out before the loop stops. -/
def customersGo (server : Nat → Payload)
    (fetchAddrs fetchAttrVals : List Int → List (Int × List Record))
    (attr_id_to_name : List (Int × String)) : Nat → Nat → Option (List Record × List Nat)
  | 0, _ => none
  | fuel + 1, page =>
    let payload := server page
    let customers := payload.data
    if customers.isEmpty then some ([], [page])
    else
      let need_addr := needIds needsAddr customers
      let need_attr := needIds needsAttr customers
      let addr_map := if need_addr.isEmpty then [] else fetchAddrs need_addr
      let attr_map := if need_attr.isEmpty then [] else fetchAttrVals need_attr
      let rows := customers.filterMap (processCustomer attr_id_to_name addr_map attr_map)
      if payload.totalPages page ≤ payload.currentPage page then some (rows, [page])
      else
        match customersGo server fetchAddrs fetchAttrVals attr_id_to_name fuel (page + 1) with
        | none => none
        | some (rest, pages) => some (rows ++ rest, page :: pages)

/-- customers.fetch_all_customers_with_subresources: walk metadata-driven
customer pages from 1, enriching and flattening along the way. -/
def fetch_all_customers_with_subresources (server : Nat → Payload)
    (fetchAddrs fetchAttrVals : List Int → List (Int × List Record))
    (attr_id_to_name : List (Int × String)) (fuel : Nat) :
    Option (List Record × List Nat) :=
  customersGo server fetchAddrs fetchAttrVals attr_id_to_name fuel 1

end Customers

/-- A minimal order/product entity used by concrete page fixtures. -/
def oneItem : Record := [("id", Value.int 1)]

/-- Concrete length-inference fixture: one full page of 250 items, then an
empty page. -/
def c4Server : Nat → List Record := fun p => if p = 1 then List.replicate 250 oneItem else []

/-- Concrete metadata-style fixture: pages of sizes 250, 250, 10 with
pagination total = 510 and total_pages = 3. -/
def c5CatalogServer : Nat → Payload := fun p =>
  { data := List.replicate (if p = 1 then 250 else if p = 2 then 250 else if p = 3 then 10 else 0) oneItem
    pagination := some { current_page := some p, total_pages := some 3, total := some 510 } }

/-- Concrete bare-array fixture: pages of sizes 250, 250, 100 and no
metadata. -/
def c5OrdersServer : Nat → List Record := fun p =>
  if p ≤ 2 then List.replicate 250 oneItem
  else if p = 3 then List.replicate 100 oneItem
  else []

/-- Oracle answering 429 (no Retry-After) to the first 20 attempts and 200
from the 21st on. -/
def c1CexOracle : Nat → Customers.CResp := fun a =>
  if a ≤ 20 then { status := 429, retryAfter := .absent }
  else { status := 200, retryAfter := .absent }

/-- Oracle answering 429 (no Retry-After) to every attempt. -/
def c1AllRetryOracle : Nat → Orders.AttemptOutcome := fun _ => .resp 429 .absent

/-- Oracle answering 429 (no Retry-After) to every attempt. -/
def c1All429Oracle : Nat → Customers.CResp := fun _ =>
  { status := 429, retryAfter := .absent }

/-- Oracle answering 429 with Retry-After: 10 to the first attempt and 200
afterwards. -/
def c2CexOracle : Nat → Orders.AttemptOutcome := fun a =>
  if a = 1 then .resp 429 (.numeric 10) else .resp 200 .absent

/-- A jitter draw of 1 second at every attempt — admissible for a base of 10,
since random.uniform(0, 0.25 * 10) can return 1. -/
def unitJitter : Nat → ℚ := fun _ => 1

/-- A customer record whose addresses key holds an empty list. -/
def c8CexCustomer : Record := [("addresses", Value.arr [])]

/-- Two orders sharing parent id 1 but differing elsewhere. -/
def c9OrderA : Record := [("id", Value.int 1), ("note", Value.str "a")]

/-- Second order with the same id. -/
def c9OrderB : Record := [("id", Value.int 1), ("note", Value.str "b")]

/-- The worker result for c9OrderA under a product fetcher returning no
products. -/
def c9RowA : Record :=
  [("id", Value.int 1), ("note", Value.str "a"), ("products_json", Value.str "[]")]

/-- The worker result for c9OrderB. -/
def c9RowB : Record :=
  [("id", Value.int 1), ("note", Value.str "b"), ("products_json", Value.str "[]")]

/-- Injection of a row list into its JSON text, used to tell concrete row
lists apart. -/
def encodeRows (rows : List Record) : String := dumpVal (.arr (rows.map Value.obj))

/-- A one-page server: one customer, no pagination metadata. -/
def c10Server : Nat → Payload := fun _ => { data := [oneItem], pagination := none }

/-- Helper for the spine of the length-inference walker: what
ordersPagesGo returns when the first short-or-empty page is `n` steps ahead
of the current page. -/
theorem Orders.ordersPagesGo_spec (server : Nat → List Record) :
    ∀ n page fuel, n < fuel →
      (∀ i, i < n → (server (page + i)).length = LIMIT) →
      (server (page + n)).length < LIMIT →
      ordersPagesGo server fuel page =
        some ((List.range' page (n + 1)).flatMap server, List.range' page (n + 1)) := by
  intro n
  induction n with
  | zero =>
    intro page fuel hfuel _ hshort
    match fuel, hfuel with
    | f + 1, _ =>
      simp only [ordersPagesGo]
      by_cases he : (server page).isEmpty
      · rw [if_pos he]
        rw [List.isEmpty_iff] at he
        simp [List.range'_one, he]
      · rw [if_neg he, if_pos (by simpa using hshort)]
        simp [List.range'_one]
  | succ n ih =>
    intro page fuel hfuel hfull hshort
    match fuel, hfuel with
    | f + 1, hf =>
      have h0 : (server page).length = LIMIT := by simpa using hfull 0 (Nat.succ_pos n)
      have hne : (server page).isEmpty = false := by
        rw [List.isEmpty_eq_false_iff_exists_mem]
        rcases List.exists_mem_of_length_pos (by rw [h0]; norm_num [LIMIT]) with ⟨a, ha⟩
        exact ⟨a, ha⟩
      have hnl : ¬ (server page).length < LIMIT := by rw [h0]; exact lt_irrefl _
      simp only [ordersPagesGo, hne, Bool.false_eq_true, if_false, if_neg hnl]
      rw [ih (page + 1) f (by omega)
        (fun i hi => by
          have := hfull (i + 1) (by omega)
          simpa [Nat.add_assoc, Nat.add_comm 1 i] using this)
        (by
          have := hshort
          have he : page + (n + 1) = page + 1 + n := by omega
          rwa [he] at this)]
      simp [List.range'_succ, List.flatMap_cons, List.append_assoc]

/-- C4: for every sequence of N-1 pages of exactly LIMIT = 250 items followed
by one strictly shorter (possibly empty) page, orders.fetch_all_orders
requests pages 1, 2, ..., N in strictly increasing order by exactly 1 per
iteration, stops exactly at the first short or empty page, and returns the
concatenation of the pages' items in page order. -/
theorem claim4_length_inference_walker (server : Nat → List Record) (N fuel : Nat)
    (hN : 1 ≤ N) (hfuel : N ≤ fuel)
    (hfull : ∀ i, 1 ≤ i → i < N → (server i).length = Orders.LIMIT)
    (hshort : (server N).length < Orders.LIMIT) :
    Orders.fetch_all_orders server fuel =
      some ((List.range' 1 N).flatMap server, List.range' 1 N) := by
  obtain ⟨n, rfl⟩ : ∃ n, N = n + 1 := ⟨N - 1, by omega⟩
  exact Orders.ordersPagesGo_spec server n 1 fuel (by omega)
    (fun i hi => by simpa [Nat.add_comm] using hfull (1 + i) (by omega) (by omega))
    (by simpa [Nat.add_comm] using hshort)

set_option maxRecDepth 100000 in
/-- C4 witness: one full page of 250 items, then an empty page; the walker
visits pages 1 and 2 and returns the 250 items. -/
theorem claim4_witness :
    Orders.fetch_all_orders c4Server 2 =
      some ((List.range' 1 2).flatMap c4Server, List.range' 1 2) :=
  claim4_length_inference_walker c4Server 2 2 (by norm_num) (by norm_num)
    (fun i h1 h2 => by
      have hi : i = 1 := by omega
      subst hi
      decide)
    (by decide)

set_option maxRecDepth 400000 in
/-- C5: fed three metadata-style pages of sizes [250, 250, 10] whose
pagination reports total = 510 and total_pages = 3, catalog.fetch_all_products
accumulates exactly 510 entities and stops after page 3; fed bare-array pages
of sizes [250, 250, 100] with no metadata, orders.fetch_all_orders
accumulates exactly 600 entities and stops after the 100-item page, issuing
no fourth page request. -/
theorem claim5_end_to_end_counts :
    (Catalog.fetch_all_products c5CatalogServer 10).map (fun r => (r.1.length, r.2)) =
        some (510, [1, 2, 3]) ∧
      (Orders.fetch_all_orders c5OrdersServer 10).map (fun r => (r.1.length, r.2)) =
        some (600, [1, 2, 3]) := by
  exact ⟨rfl, rfl⟩

/-- C10: a page whose body carries a non-empty data array but no
meta.pagination still gets its entities appended, but both metadata-driven
walkers (catalog.fetch_all_products and the customer page loop) then stop:
current_page and total_pages both default to the loop page, compare equal,
and no further page is requested. -/
theorem claim10_missing_pagination_stops_walk
    (server : Nat → Payload) (page fuel : Nat)
    (hdata : (server page).data ≠ [])
    (hmeta : (server page).pagination = none)
    (cserver : Nat → Payload)
    (fetchAddrs fetchAttrVals : List Int → List (Int × List Record))
    (attrNames : List (Int × String))
    (hcdata : (cserver page).data ≠ [])
    (hcmeta : (cserver page).pagination = none) :
    Catalog.catalogGo server (fuel + 1) page =
        some ((server page).data.map Catalog.normalize_product, [page]) ∧
      Customers.customersGo cserver fetchAddrs fetchAttrVals attrNames (fuel + 1) page =
        some ((cserver page).data.filterMap
          (Customers.processCustomer attrNames
            (if (Customers.needIds Customers.needsAddr (cserver page).data).isEmpty then []
             else fetchAddrs (Customers.needIds Customers.needsAddr (cserver page).data))
            (if (Customers.needIds Customers.needsAttr (cserver page).data).isEmpty then []
             else fetchAttrVals (Customers.needIds Customers.needsAttr (cserver page).data))),
          [page]) := by
  constructor
  · have he : (server page).data.isEmpty = false := by
      cases hd : (server page).data with
      | nil => exact absurd hd hdata
      | cons a l => simp
    simp only [Catalog.catalogGo, he, Bool.false_eq_true, if_false]
    simp [Payload.totalPages, Payload.currentPage, hmeta]
  · have he : (cserver page).data.isEmpty = false := by
      cases hd : (cserver page).data with
      | nil => exact absurd hd hcdata
      | cons a l => simp
    simp only [Customers.customersGo, he, Bool.false_eq_true, if_false]
    simp [Payload.totalPages, Payload.currentPage, hcmeta]

/-- C10 witness: a single customer page and a single catalog page, each with
one entity and no pagination metadata; both walkers stop after page 1. -/
theorem claim10_witness :
    Catalog.catalogGo c10Server (3 + 1) 1 =
        some ((c10Server 1).data.map Catalog.normalize_product, [1]) ∧
      Customers.customersGo c10Server (fun _ => []) (fun _ => []) [] (3 + 1) 1 =
        some ((c10Server 1).data.filterMap
          (Customers.processCustomer []
            (if (Customers.needIds Customers.needsAddr (c10Server 1).data).isEmpty then []
             else (fun _ => []) (Customers.needIds Customers.needsAddr (c10Server 1).data))
            (if (Customers.needIds Customers.needsAttr (c10Server 1).data).isEmpty then []
             else (fun _ => []) (Customers.needIds Customers.needsAttr (c10Server 1).data))),
          [1]) :=
  claim10_missing_pagination_stops_walk c10Server 1 3 (fun h => List.noConfusion h) rfl
    c10Server (fun _ => []) (fun _ => []) [] (fun h => List.noConfusion h) rfl

/-- Helper: the chunk loop of fetch_attribute_values_for_customers, on hitting
its first failing chunk, returns the empty map for a 403/404 and propagates
any other error. -/
theorem Customers.fetchValuesGo_error (fetchChunk : List Int → Except Customers.HttpErr (List Record)) :
    ∀ chunks acc e, Customers.firstFetchError fetchChunk chunks = some e →
      Customers.fetchValuesGo fetchChunk chunks acc =
        (if e.status = some 403 ∨ e.status = some 404 then .ok [] else .error e) := by
  intro chunks
  induction chunks with
  | nil => intro acc e h; simp [Customers.firstFetchError] at h
  | cons chunk rest ih =>
    intro acc e h
    simp only [Customers.firstFetchError] at h
    simp only [Customers.fetchValuesGo]
    cases hc : fetchChunk chunk with
    | ok rows =>
      rw [hc] at h
      exact ih _ e h
    | error e2 =>
      rw [hc] at h
      have he : e2 = e := by injection h
      subst he
      rfl

/-- C6: if the supplemental attribute-values endpoint fails with HTTP 403 or
404, customers.fetch_attribute_values_for_customers returns the empty mapping
(after a printed warning) instead of raising, so the run continues on inline
data; any other HTTP error propagates and is fatal. -/
theorem claim6_degraded_subresource
    (fetchChunk : List Int → Except Customers.HttpErr (List Record))
    (ids : List Int) (e : Customers.HttpErr)
    (herr : Customers.firstFetchError fetchChunk
      (Customers.chunked_ints ids Customers.ID_IN_CHUNK) = some e) :
    Customers.fetch_attribute_values_for_customers fetchChunk ids =
      (if e.status = some 403 ∨ e.status = some 404 then .ok [] else .error e) := by
  simp only [Customers.fetch_attribute_values_for_customers]
  by_cases hids : ids.isEmpty = true
  · exfalso
    have hnil : ids = [] := List.isEmpty_iff.mp hids
    subst hnil
    simp [Customers.chunked_ints, Customers.chunksGo, Customers.firstFetchError] at herr
  · rw [if_neg hids]
    exact Customers.fetchValuesGo_error fetchChunk _ [] e herr

/-- C6 witness: a 403 on the only chunk yields the empty mapping, and a 500
propagates as the error itself. -/
theorem claim6_witness :
    Customers.fetch_attribute_values_for_customers (fun _ => .error { status := some 403 }) [1] =
        .ok [] ∧
      Customers.fetch_attribute_values_for_customers (fun _ => .error { status := some 500 }) [1] =
        .error { status := some 500 } := by
  constructor
  · have h := claim6_degraded_subresource (fun _ => .error { status := some 403 }) [1]
      { status := some 403 } (by decide)
    simpa using h
  · have h := claim6_degraded_subresource (fun _ => .error { status := some 500 }) [1]
      { status := some 500 } (by decide)
    simpa using h

/-- Helper: when every attempt in the remaining budget fails retryably, the
orders retry loop spends the whole budget and raises the stored last network
exception if one exists, else the generic RuntimeError. -/
theorem Orders.requestWithBackoffGo_exhausts (oracle : Nat → Orders.AttemptOutcome)
    (jitter : Nat → ℚ) :
    ∀ remaining attempt lastExc,
      (∀ a, attempt ≤ a → a < attempt + remaining → Orders.isRetryable (oracle a) = true) →
      (Orders.requestWithBackoffGo oracle jitter remaining attempt lastExc).requests = remaining ∧
        (Orders.requestWithBackoffGo oracle jitter remaining attempt lastExc).outcome =
          Orders.exhaustOutcome
            ((Orders.lastNetErrIn oracle remaining attempt).orElse (fun _ => lastExc)) := by
  intro remaining
  induction remaining with
  | zero =>
    intro attempt lastExc _
    refine ⟨rfl, ?_⟩
    cases lastExc <;> rfl
  | succ remaining ih =>
    intro attempt lastExc hall
    have hhead : Orders.isRetryable (oracle attempt) = true := hall attempt le_rfl (by omega)
    have htail : ∀ a, attempt + 1 ≤ a → a < attempt + 1 + remaining →
        Orders.isRetryable (oracle a) = true :=
      fun a h1 h2 => hall a (by omega) (by omega)
    cases ho : oracle attempt with
    | netErr =>
      have ih2 := ih (attempt + 1) (some attempt) htail
      simp only [Orders.requestWithBackoffGo, ho]
      refine ⟨by simp [ih2.1], ?_⟩
      rw [show (Orders.requestWithBackoffGo oracle jitter remaining (attempt + 1)
        (some attempt)).outcome = Orders.exhaustOutcome
          ((Orders.lastNetErrIn oracle remaining (attempt + 1)).orElse
            (fun _ => some attempt)) from ih2.2]
      simp only [Orders.lastNetErrIn, ho]
      cases h2 : Orders.lastNetErrIn oracle remaining (attempt + 1) <;> simp [Option.orElse]
    | resp status ra =>
      rw [ho] at hhead
      have hs : status = 429 ∨ status = 500 ∨ status = 502 ∨ status = 503 ∨ status = 504 := by
        simpa [Orders.isRetryable] using hhead
      have ih2 := ih (attempt + 1) lastExc htail
      have hlast : Orders.lastNetErrIn oracle (remaining + 1) attempt =
          Orders.lastNetErrIn oracle remaining (attempt + 1) := by
        simp only [Orders.lastNetErrIn, ho]
        cases h2 : Orders.lastNetErrIn oracle remaining (attempt + 1) <;> simp
      rcases hs with h429 | h5xx
      · subst h429
        simp only [Orders.requestWithBackoffGo, ho, if_pos rfl]
        exact ⟨by simp [ih2.1], by rw [hlast]; simpa using ih2.2⟩
      · have hne : status ≠ 429 := by omega
        simp only [Orders.requestWithBackoffGo, ho, if_neg hne, if_pos h5xx]
        exact ⟨by simp [ih2.1], by rw [hlast]; simpa using ih2.2⟩

/-- Helper: when every attempt in and beyond the remaining 429 budget returns
429, the customers retry loop issues budget + 1 requests and raises an
HTTPError carrying the final 429 response. -/
theorem Customers.getWith429Go_exhausts (oracle : Nat → Customers.CResp) :
    ∀ budget attempt,
      (∀ a, attempt ≤ a → a ≤ attempt + budget → (oracle a).status = 429) →
      (Customers.getWith429Go oracle budget attempt).requests = budget + 1 ∧
        (Customers.getWith429Go oracle budget attempt).outcome =
          .exhausted (oracle (attempt + budget)) := by
  intro budget
  induction budget with
  | zero =>
    intro attempt hall
    have h := hall attempt le_rfl (by omega)
    simp only [Customers.getWith429Go]
    rw [if_neg (by simp [h])]
    exact ⟨rfl, by simp⟩
  | succ budget ih =>
    intro attempt hall
    have h := hall attempt le_rfl (by omega)
    have ih2 := ih (attempt + 1) (fun a h1 h2 => hall a (by omega) (by omega))
    simp only [Customers.getWith429Go]
    rw [if_neg (by simp [h])]
    refine ⟨by simp [ih2.1], ?_⟩
    have harith : attempt + 1 + budget = attempt + (budget + 1) := by omega
    rw [show (attempt + (budget + 1)) = attempt + 1 + budget from by omega]
    simpa using ih2.2

/-- C1 counterexample: after exactly MAX_429_RETRIES = 20 consecutive 429
failures, customers.get_with_429_retry does not raise — it issues a 21st
attempt and returns that attempt's response, refuting the claim that the
fetch raises after exactly MAX_RETRIES retryable failures with no further
attempt. -/
theorem claim1_counterexample :
    (Customers.get_with_429_retry c1CexOracle).outcome =
        .returned { status := 200, retryAfter := .absent } 21 ∧
      (Customers.get_with_429_retry c1CexOracle).requests = 21 :=
  ⟨rfl, rfl⟩

/-- C1 (amended): when every attempt fails retryably, orders.request_with_backoff
raises after exactly MAX_RETRIES = 8 attempts — re-raising the last network
exception when one occurred, else a generic exhausted-retries RuntimeError
that carries no response — and customers.get_with_429_retry raises after
exactly MAX_429_RETRIES + 1 = 21 consecutive 429 responses, an HTTPError
carrying the last (21st) response; neither issues a further attempt. -/
theorem claim1_amended_exhaustion :
    (∀ oracle jitter, (∀ a, 1 ≤ a → a ≤ 8 → Orders.isRetryable (oracle a) = true) →
      (Orders.request_with_backoff oracle jitter).requests = 8 ∧
        (Orders.request_with_backoff oracle jitter).outcome =
          Orders.exhaustOutcome (Orders.lastNetErrIn oracle 8 1)) ∧
      (∀ oracle, (∀ a, 1 ≤ a → a ≤ 21 → (oracle a).status = 429) →
        (Customers.get_with_429_retry oracle).requests = 21 ∧
          (Customers.get_with_429_retry oracle).outcome = .exhausted (oracle 21)) := by
  constructor
  · intro oracle jitter hall
    have h := Orders.requestWithBackoffGo_exhausts oracle jitter 8 1 none
      (fun a h1 h2 => hall a h1 (by omega))
    refine ⟨h.1, ?_⟩
    show (Orders.requestWithBackoffGo oracle jitter 8 1 none).outcome =
      Orders.exhaustOutcome (Orders.lastNetErrIn oracle 8 1)
    rw [h.2]
    cases h2 : Orders.lastNetErrIn oracle 8 1 <;> simp [Option.orElse]
  · intro oracle hall
    have h := Customers.getWith429Go_exhausts oracle 20 1
      (fun a h1 h2 => hall a h1 (by omega))
    exact ⟨h.1, h.2⟩

/-- C1 witness: with every attempt answered 429, the orders fetch issues
exactly 8 requests and the customers fetch exactly 21. -/
theorem claim1_witness :
    (Orders.request_with_backoff c1AllRetryOracle (fun _ => 0)).requests = 8 ∧
      (Customers.get_with_429_retry c1All429Oracle).requests = 21 :=
  ⟨(claim1_amended_exhaustion.1 c1AllRetryOracle (fun _ => 0) (fun _ _ _ => rfl)).1,
    (claim1_amended_exhaustion.2 c1All429Oracle (fun _ _ _ => rfl)).1⟩

/-- C2 counterexample: a 429 carrying numeric Retry-After 10 does not make
orders.request_with_backoff sleep exactly 10 — random jitter is added to the
header value too (and the sum capped at 60), so with a drawn jitter of 1 the
sleep is 11, refuting the claim for request_with_backoff. -/
theorem claim2_counterexample :
    (Orders.request_with_backoff c2CexOracle unitJitter).sleeps = [11] ∧
      (Orders.request_with_backoff c2CexOracle unitJitter).sleeps ≠ [10] := by
  have hall : (Orders.request_with_backoff c2CexOracle unitJitter).sleeps =
      [min ((10 : ℚ) + 1) 60] := by
    show (Orders.requestWithBackoffGo c2CexOracle unitJitter (7 + 1) 1 none).sleeps = _
    simp [Orders.requestWithBackoffGo, c2CexOracle, unitJitter]
  have hmin : min ((10 : ℚ) + 1) 60 = 11 := by
    rw [min_eq_left (by norm_num)]
    norm_num
  rw [hall, hmin]
  exact ⟨rfl, by simp⟩

/-- C2 (amended): given a 429 whose Retry-After is a numeric value k, the next
attempt of customers.get_with_429_retry comes after a sleep of exactly k (no
jitter, no cap, integer header values); orders.request_with_backoff instead
sleeps min(k + jitter, 60) where jitter is the random.uniform(0, 0.25 * k)
draw — the header value is jittered and capped, not slept exactly. -/
theorem claim2_amended_retry_after_sleep :
    (∀ (oracle : Nat → Customers.CResp) (budget attempt k : Nat),
      oracle attempt = { status := 429, retryAfter := .digits k } →
      (Customers.getWith429Go oracle (budget + 1) attempt).sleeps =
        k :: (Customers.getWith429Go oracle budget (attempt + 1)).sleeps) ∧
      (∀ (oracle : Nat → Orders.AttemptOutcome) (jitter : Nat → ℚ)
        (remaining attempt : Nat) (lastExc : Option Nat) (k : ℚ),
        oracle attempt = .resp 429 (.numeric k) →
        (Orders.requestWithBackoffGo oracle jitter (remaining + 1) attempt lastExc).sleeps =
          min (k + jitter attempt) 60 ::
            (Orders.requestWithBackoffGo oracle jitter remaining (attempt + 1) lastExc).sleeps) := by
  constructor
  · intro oracle budget attempt k ho
    simp [Customers.getWith429Go, ho]
  · intro oracle jitter remaining attempt lastExc k ho
    simp [Orders.requestWithBackoffGo, ho]

/-- C2 witness: a 429 with Retry-After 7 makes the customers loop sleep
exactly 7; a 429 with Retry-After 10 and a drawn jitter of 1 makes the orders
loop sleep min(10 + 1, 60). -/
theorem claim2_witness :
    (Customers.getWith429Go (fun _ => { status := 429, retryAfter := .digits 7 }) (0 + 1) 1).sleeps =
        7 :: (Customers.getWith429Go (fun _ => { status := 429, retryAfter := .digits 7 }) 0 2).sleeps ∧
      (Orders.requestWithBackoffGo c2CexOracle unitJitter (7 + 1) 1 none).sleeps =
        min ((10 : ℚ) + unitJitter 1) 60 ::
          (Orders.requestWithBackoffGo c2CexOracle unitJitter 7 2 none).sleeps :=
  ⟨claim2_amended_retry_after_sleep.1 _ 0 1 7 rfl,
    claim2_amended_retry_after_sleep.2 c2CexOracle unitJitter 7 1 none 10 rfl⟩

/-- C3 counterexample: the retryable trigger set is not "HTTP 5xx" in either
implementation. orders.request_with_backoff lets a 501 fall through to
raise_for_status on the first attempt (fatal, one request, no retry), and
customers.get_with_429_retry returns a 500 to its caller on the first attempt
(no retry at all). -/
theorem claim3_counterexample :
    (Orders.request_with_backoff (fun _ => .resp 501 .absent) (fun _ => 0)).outcome =
        .httpError 501 1 ∧
      (Orders.request_with_backoff (fun _ => .resp 501 .absent) (fun _ => 0)).requests = 1 ∧
      (Customers.get_with_429_retry (fun _ => { status := 500, retryAfter := .absent })).outcome =
        .returned { status := 500, retryAfter := .absent } 1 ∧
      (Customers.get_with_429_retry (fun _ => { status := 500, retryAfter := .absent })).requests = 1 :=
  ⟨rfl, rfl, rfl, rfl⟩

/-- C3 (amended): the retry policy, per implementation. In
orders.request_with_backoff the retryable triggers are exactly HTTP 429
(sleep min(base + jitter, 60), base the numeric Retry-After when present,
else 2 ** (attempt - 1)), HTTP 500/502/503/504 and network timeout or
connection failure (both on the jittered exponential schedule, jitter being
the random.uniform(0, 0.25 * base) draw); every other 4xx/5xx status raises
immediately via raise_for_status with no further attempt. In
customers.get_with_429_retry the only retryable trigger is HTTP 429 (sleep
the digit Retry-After exactly when present, else min(5 + (retries - 1), 30));
every other response — 5xx and network failures included — is returned to the
caller after a single attempt. -/
theorem claim3_amended_retry_triggers :
    (∀ (oracle : Nat → Orders.AttemptOutcome) (jitter : Nat → ℚ) remaining attempt
      (lastExc : Option Nat) (ra : Orders.RetryAfter),
      oracle attempt = .resp 429 ra →
      Orders.requestWithBackoffGo oracle jitter (remaining + 1) attempt lastExc =
        { outcome := (Orders.requestWithBackoffGo oracle jitter remaining (attempt + 1) lastExc).outcome
          requests := (Orders.requestWithBackoffGo oracle jitter remaining (attempt + 1) lastExc).requests + 1
          sleeps :=
            min ((match ra with | .numeric q => q | _ => Orders.backoff attempt) + jitter attempt) 60 ::
              (Orders.requestWithBackoffGo oracle jitter remaining (attempt + 1) lastExc).sleeps }) ∧
    (∀ (oracle : Nat → Orders.AttemptOutcome) (jitter : Nat → ℚ) remaining attempt
      (lastExc : Option Nat) status (ra : Orders.RetryAfter),
      oracle attempt = .resp status ra →
      (status = 500 ∨ status = 502 ∨ status = 503 ∨ status = 504) →
      Orders.requestWithBackoffGo oracle jitter (remaining + 1) attempt lastExc =
        { outcome := (Orders.requestWithBackoffGo oracle jitter remaining (attempt + 1) lastExc).outcome
          requests := (Orders.requestWithBackoffGo oracle jitter remaining (attempt + 1) lastExc).requests + 1
          sleeps := min (Orders.backoff attempt + jitter attempt) 60 ::
            (Orders.requestWithBackoffGo oracle jitter remaining (attempt + 1) lastExc).sleeps }) ∧
    (∀ (oracle : Nat → Orders.AttemptOutcome) (jitter : Nat → ℚ) remaining attempt
      (lastExc : Option Nat),
      oracle attempt = .netErr →
      Orders.requestWithBackoffGo oracle jitter (remaining + 1) attempt lastExc =
        { outcome := (Orders.requestWithBackoffGo oracle jitter remaining (attempt + 1) (some attempt)).outcome
          requests := (Orders.requestWithBackoffGo oracle jitter remaining (attempt + 1) (some attempt)).requests + 1
          sleeps := min (Orders.backoff attempt + jitter attempt) 60 ::
            (Orders.requestWithBackoffGo oracle jitter remaining (attempt + 1) (some attempt)).sleeps }) ∧
    (∀ (oracle : Nat → Orders.AttemptOutcome) (jitter : Nat → ℚ) remaining attempt
      (lastExc : Option Nat) status (ra : Orders.RetryAfter),
      oracle attempt = .resp status ra →
      status ≠ 429 → ¬(status = 500 ∨ status = 502 ∨ status = 503 ∨ status = 504) →
      400 ≤ status → status < 600 →
      Orders.requestWithBackoffGo oracle jitter (remaining + 1) attempt lastExc =
        { outcome := .httpError status attempt, requests := 1, sleeps := [] }) ∧
    (∀ (oracle : Nat → Customers.CResp) budget attempt,
      (oracle attempt).status ≠ 429 →
      Customers.getWith429Go oracle budget attempt =
        { outcome := .returned (oracle attempt) attempt, requests := 1, sleeps := [] }) ∧
    (∀ (oracle : Nat → Customers.CResp) budget attempt,
      (oracle attempt).status = 429 →
      Customers.getWith429Go oracle (budget + 1) attempt =
        { outcome := (Customers.getWith429Go oracle budget (attempt + 1)).outcome
          requests := (Customers.getWith429Go oracle budget (attempt + 1)).requests + 1
          sleeps :=
            (match (oracle attempt).retryAfter with
              | .digits n => n
              | _ => min (Customers.DEFAULT_RETRY_AFTER + (attempt - 1)) 30) ::
              (Customers.getWith429Go oracle budget (attempt + 1)).sleeps }) := by
  refine ⟨?_, ?_, ?_, ?_, ?_, ?_⟩
  · intro oracle jitter remaining attempt lastExc ra ho
    simp [Orders.requestWithBackoffGo, ho]
  · intro oracle jitter remaining attempt lastExc status ra ho h5
    have hne : status ≠ 429 := by omega
    simp [Orders.requestWithBackoffGo, ho, hne, h5]
  · intro oracle jitter remaining attempt lastExc ho
    simp [Orders.requestWithBackoffGo, ho]
  · intro oracle jitter remaining attempt lastExc status ra ho hne h5 h4 h6
    simp [Orders.requestWithBackoffGo, ho, hne, h5, h4, h6]
  · intro oracle budget attempt hne
    cases budget <;> simp [Customers.getWith429Go, hne]
  · intro oracle budget attempt h429
    simp [Customers.getWith429Go, h429]

/-- C3 witness: the amended policy applied at concrete inputs — a 429 with
Retry-After 10 retried by the orders loop, a 404 fatal at once in the orders
loop, a 404 returned at once by the customers loop, and a 429 retried with
the default schedule by the customers loop. -/
theorem claim3_witness :
    (Orders.requestWithBackoffGo c2CexOracle unitJitter (7 + 1) 1 none =
      { outcome := (Orders.requestWithBackoffGo c2CexOracle unitJitter 7 2 none).outcome
        requests := (Orders.requestWithBackoffGo c2CexOracle unitJitter 7 2 none).requests + 1
        sleeps := min ((10 : ℚ) + unitJitter 1) 60 ::
          (Orders.requestWithBackoffGo c2CexOracle unitJitter 7 2 none).sleeps }) ∧
    (Orders.requestWithBackoffGo (fun _ => .resp 404 .absent) (fun _ => 0) (7 + 1) 1 none =
      { outcome := .httpError 404 1, requests := 1, sleeps := [] }) ∧
    (Customers.getWith429Go (fun _ => { status := 404, retryAfter := .absent }) 20 1 =
      { outcome := .returned { status := 404, retryAfter := .absent } 1
        requests := 1, sleeps := [] }) ∧
    (Customers.getWith429Go c1All429Oracle (19 + 1) 1 =
      { outcome := (Customers.getWith429Go c1All429Oracle 19 2).outcome
        requests := (Customers.getWith429Go c1All429Oracle 19 2).requests + 1
        sleeps := min (Customers.DEFAULT_RETRY_AFTER + (1 - 1)) 30 ::
          (Customers.getWith429Go c1All429Oracle 19 2).sleeps }) := by
  refine ⟨?_, ?_, ?_, ?_⟩
  · exact claim3_amended_retry_triggers.1 c2CexOracle unitJitter 7 1 none (.numeric 10) rfl
  · exact claim3_amended_retry_triggers.2.2.2.1 _ _ 7 1 none 404 .absent rfl
      (by decide) (by decide) (by decide) (by decide)
  · exact claim3_amended_retry_triggers.2.2.2.2.1 _ 20 1 (by decide)
  · exact claim3_amended_retry_triggers.2.2.2.2.2 c1All429Oracle 19 1 rfl

/-- Helper: head characterization of the code-point comparison. -/
theorem Customers.charListLt_cons_iff (x y : Char) (xs ys : List Char) :
    Customers.charListLt (x :: xs) (y :: ys) = true ↔
      (x < y ∨ (x = y ∧ Customers.charListLt xs ys = true)) := by
  simp only [Customers.charListLt]
  by_cases h1 : x < y
  · simp [h1]
  · by_cases h2 : y < x
    · have hne : x ≠ y := fun h => absurd (h ▸ h2) (lt_irrefl x)
      simp [h1, h2, hne]
    · have hxy : x = y := le_antisymm (not_lt.mp h2) (not_lt.mp h1)
      simp [h1, h2, hxy]

/-- Helper: transitivity of the code-point comparison. -/
theorem Customers.charListLt_trans :
    ∀ a b c : List Char, Customers.charListLt a b = true →
      Customers.charListLt b c = true → Customers.charListLt a c = true := by
  intro a
  induction a with
  | nil =>
    intro b c hab hbc
    cases b with
    | nil => simp [Customers.charListLt] at hab
    | cons y ys =>
      cases c with
      | nil => simp [Customers.charListLt] at hbc
      | cons z zs => simp [Customers.charListLt]
  | cons x xs ih =>
    intro b c hab hbc
    cases b with
    | nil => simp [Customers.charListLt] at hab
    | cons y ys =>
      cases c with
      | nil => simp [Customers.charListLt] at hbc
      | cons z zs =>
        rw [Customers.charListLt_cons_iff] at hab hbc ⊢
        rcases hab with h1 | ⟨rfl, h1⟩
        · rcases hbc with h2 | ⟨rfl, h2⟩
          · exact Or.inl (lt_trans h1 h2)
          · exact Or.inl h1
        · rcases hbc with h2 | ⟨rfl, h2⟩
          · exact Or.inl h2
          · exact Or.inr ⟨rfl, ih ys zs h1 h2⟩

/-- Helper: trichotomy of the code-point comparison. -/
theorem Customers.charListLt_total :
    ∀ a b : List Char, Customers.charListLt a b = true ∨ a = b ∨
      Customers.charListLt b a = true := by
  intro a
  induction a with
  | nil =>
    intro b
    cases b with
    | nil => exact Or.inr (Or.inl rfl)
    | cons y ys => exact Or.inl (by simp [Customers.charListLt])
  | cons x xs ih =>
    intro b
    cases b with
    | nil => exact Or.inr (Or.inr (by simp [Customers.charListLt]))
    | cons y ys =>
      rcases lt_trichotomy x y with h | rfl | h
      · exact Or.inl ((Customers.charListLt_cons_iff x y xs ys).mpr (Or.inl h))
      · rcases ih ys with h2 | rfl | h2
        · exact Or.inl ((Customers.charListLt_cons_iff x x xs ys).mpr (Or.inr ⟨rfl, h2⟩))
        · exact Or.inr (Or.inl rfl)
        · exact Or.inr (Or.inr ((Customers.charListLt_cons_iff x x ys xs).mpr (Or.inr ⟨rfl, h2⟩)))
      · exact Or.inr (Or.inr ((Customers.charListLt_cons_iff y x ys xs).mpr (Or.inl h)))

/-- Helper: unfolding of the Python tuple comparison. -/
theorem Customers.keyLe_iff (a b : Nat × String) :
    Customers.keyLe a b = true ↔
      a.1 < b.1 ∨ (a.1 = b.1 ∧ (Customers.pyStrLt a.2 b.2 = true ∨ a.2 = b.2)) := by
  simp [Customers.keyLe, Bool.or_eq_true, Bool.and_eq_true, decide_eq_true_eq]

/-- Helper: strings with equal character data are equal. -/
theorem Customers.stringDataEq {a b : String} (h : a.data = b.data) : a = b := by
  cases a
  cases b
  exact congrArg String.mk h

/-- Helper: transitivity of the tuple comparison. -/
theorem Customers.keyLe_trans (a b c : Nat × String)
    (hab : Customers.keyLe a b = true) (hbc : Customers.keyLe b c = true) :
    Customers.keyLe a c = true := by
  rw [Customers.keyLe_iff] at hab hbc ⊢
  rcases hab with h1 | ⟨he1, hs1⟩
  · rcases hbc with h2 | ⟨he2, hs2⟩
    · exact Or.inl (lt_trans h1 h2)
    · exact Or.inl (he2 ▸ h1)
  · rcases hbc with h2 | ⟨he2, hs2⟩
    · exact Or.inl (he1 ▸ h2)
    · refine Or.inr ⟨he1.trans he2, ?_⟩
      rcases hs1 with h1 | h1
      · rcases hs2 with h2 | h2
        · exact Or.inl (Customers.charListLt_trans _ _ _ h1 h2)
        · exact Or.inl (h2 ▸ h1)
      · rcases hs2 with h2 | h2
        · exact Or.inl (h1 ▸ h2)
        · exact Or.inr (h1.trans h2)

/-- Helper: totality of the tuple comparison. -/
theorem Customers.keyLe_total (a b : Nat × String) :
    Customers.keyLe a b = true ∨ Customers.keyLe b a = true := by
  rcases lt_trichotomy a.1 b.1 with h | h | h
  · exact Or.inl ((Customers.keyLe_iff a b).mpr (Or.inl h))
  · rcases Customers.charListLt_total a.2.data b.2.data with h2 | h2 | h2
    · exact Or.inl ((Customers.keyLe_iff a b).mpr (Or.inr ⟨h, Or.inl h2⟩))
    · exact Or.inl ((Customers.keyLe_iff a b).mpr
        (Or.inr ⟨h, Or.inr (Customers.stringDataEq h2)⟩))
    · exact Or.inr ((Customers.keyLe_iff b a).mpr (Or.inr ⟨h.symm, Or.inl h2⟩))
  · exact Or.inr ((Customers.keyLe_iff b a).mpr (Or.inl h))

set_option maxRecDepth 100000 in
/-- C7: for every key list and arrival order, sort_split_keys returns a
permutation of the keys sorted by ascending numeric index first and
code-point-lexicographic field name within the same index; in particular,
given address1_zip, address2_city, address1_city first seen in that order,
build_fieldnames orders them address1_city, address1_zip, address2_city. -/
theorem claim7_split_column_ordering :
    (∀ (keys : List String) (pfx : String),
      List.Sorted
          (fun a b =>
            Customers.keyLe (Customers.splitSortKey pfx a) (Customers.splitSortKey pfx b) = true)
          (Customers.sort_split_keys keys pfx) ∧
        (Customers.sort_split_keys keys pfx).Perm keys) ∧
      Customers.build_fieldnames
          [[("address1_zip", Value.null), ("address2_city", Value.null),
            ("address1_city", Value.null)]] =
        ["address1_city", "address1_zip", "address2_city"] := by
  constructor
  · intro keys pfx
    haveI : IsTrans String
        (fun a b =>
          Customers.keyLe (Customers.splitSortKey pfx a) (Customers.splitSortKey pfx b) = true) :=
      ⟨fun a b c h1 h2 => Customers.keyLe_trans _ _ _ h1 h2⟩
    haveI : IsTotal String
        (fun a b =>
          Customers.keyLe (Customers.splitSortKey pfx a) (Customers.splitSortKey pfx b) = true) :=
      ⟨fun a b => Customers.keyLe_total _ _⟩
    exact ⟨List.sorted_insertionSort _ _, List.perm_insertionSort _ _⟩
  · rfl

/-- Helper: a key absent from a record looks up to none. -/
theorem getField_eq_none_of_not_mem :
    ∀ (r : Record) (k : String), k ∉ r.map Prod.fst → getField r k = none := by
  intro r
  induction r with
  | nil => intro k _; rfl
  | cons p rest ih =>
    intro k hk
    simp only [List.map_cons, List.mem_cons] at hk
    push_neg at hk
    simp only [getField]
    rw [if_neg (fun h => hk.1 h.symm)]
    exact ih k hk.2

/-- Helper: assigning a fresh key appends the binding. -/
theorem setField_eq_append :
    ∀ (out : Record) (k : String) (v : Value), k ∉ out.map Prod.fst →
      setField out k v = out ++ [(k, v)] := by
  intro out
  induction out with
  | nil => intro k v _; rfl
  | cons p rest ih =>
    intro k v hk
    simp only [List.map_cons, List.mem_cons] at hk
    push_neg at hk
    simp only [setField]
    rw [if_neg (fun h => hk.1 h.symm)]
    rw [ih k v hk.2]
    rfl

/-- Helper: assigning an existing key keeps the key list. -/
theorem setField_map_fst_of_mem :
    ∀ (out : Record) (k : String) (v : Value), k ∈ out.map Prod.fst →
      (setField out k v).map Prod.fst = out.map Prod.fst := by
  intro out
  induction out with
  | nil => intro k v hk; simp at hk
  | cons p rest ih =>
    intro k v hk
    simp only [setField]
    by_cases h : p.1 = k
    · rw [if_pos h]
      simp [h]
    · rw [if_neg h]
      simp only [List.map_cons, List.mem_cons] at hk
      rcases hk with hk | hk
      · exact absurd hk.symm h
      · simp [ih k v hk]

/-- Helper: every binding of an assigned record is an old binding or the new
one. -/
theorem mem_setField :
    ∀ (out : Record) (k : String) (v : Value) (p : String × Value),
      p ∈ setField out k v → p ∈ out ∨ p = (k, v) := by
  intro out
  induction out with
  | nil => intro k v p hp; simp [setField] at hp; exact Or.inr hp
  | cons q rest ih =>
    intro k v p hp
    simp only [setField] at hp
    by_cases h : q.1 = k
    · rw [if_pos h] at hp
      rcases List.mem_cons.mp hp with hp | hp
      · exact Or.inr (by rw [hp, h])
      · exact Or.inl (List.mem_cons_of_mem _ hp)
    · rw [if_neg h] at hp
      rcases List.mem_cons.mp hp with hp | hp
      · exact Or.inl (by rw [hp]; exact List.mem_cons_self _ _)
      · rcases ih k v p hp with hp2 | hp2
        · exact Or.inl (List.mem_cons_of_mem _ hp2)
        · exact Or.inr hp2

/-- Helper: the dict-building loop over fresh, distinct keys appends the
normalized bindings in order. -/
theorem dictMapNorm_eq_append :
    ∀ (l : List (String × Value)) (out : Record),
      (l.map Prod.fst).Nodup →
      (∀ k ∈ l.map Prod.fst, k ∉ out.map Prod.fst) →
      dictMapNorm l out = out ++ l.map (fun kv => (kv.1, normCell kv.2)) := by
  intro l
  induction l with
  | nil => intro out _ _; simp [dictMapNorm]
  | cons p rest ih =>
    intro out hnodup hfresh
    obtain ⟨k, v⟩ := p
    simp only [dictMapNorm]
    rw [setField_eq_append out k (normCell v) (hfresh k (by simp))]
    rw [ih (out ++ [(k, normCell v)])
      (by simpa using hnodup.of_cons)
      (by
        intro k2 hk2
        have h1 : k2 ∉ out.map Prod.fst := hfresh k2 (by simp [hk2])
        have h2 : k2 ≠ k := by
          intro he
          have hnd := hnodup
          simp only [List.map_cons] at hnd
          exact (List.nodup_cons.mp hnd).1 (he ▸ hk2)
        simp only [List.map_append, List.mem_append]
        push_neg
        exact ⟨h1, by simpa using h2⟩)]
    simp

/-- Helper: flattened cells are flat. -/
theorem normCell_isFlat (v : Value) : (normCell v).isFlatCell = true := by
  cases v <;> rfl

/-- Helper: flat cells are fixed by flattening. -/
theorem normCell_of_isFlat (v : Value) (h : v.isFlatCell = true) : normCell v = v := by
  cases v <;> first | rfl | simp [Value.isFlatCell] at h

/-- Helper: the dict-building loop keeps key lists duplicate-free. -/
theorem dictMapNorm_keys_nodup :
    ∀ (l : List (String × Value)) (out : Record),
      (out.map Prod.fst).Nodup → ((dictMapNorm l out).map Prod.fst).Nodup := by
  intro l
  induction l with
  | nil => intro out h; exact h
  | cons p rest ih =>
    intro out h
    obtain ⟨k, v⟩ := p
    simp only [dictMapNorm]
    refine ih _ ?_
    by_cases hk : k ∈ out.map Prod.fst
    · rw [setField_map_fst_of_mem out k (normCell v) hk]; exact h
    · rw [setField_eq_append out k (normCell v) hk]
      simp only [List.map_append]
      exact List.Nodup.append h (by simp) (by simpa [List.disjoint_singleton] using hk)

/-- Helper: the dict-building loop yields flat cells when the accumulator is
flat. -/
theorem dictMapNorm_values_flat :
    ∀ (l : List (String × Value)) (out : Record),
      (∀ p ∈ out, (Prod.snd p).isFlatCell = true) →
      ∀ p ∈ dictMapNorm l out, (Prod.snd p).isFlatCell = true := by
  intro l
  induction l with
  | nil => intro out h; exact h
  | cons q rest ih =>
    intro out h
    obtain ⟨k, v⟩ := q
    simp only [dictMapNorm]
    refine ih _ ?_
    intro p hp
    rcases mem_setField out k (normCell v) p hp with hp2 | hp2
    · exact h p hp2
    · rw [hp2]
      exact normCell_isFlat v

/-- Helper: the dict-building loop fixes records with distinct keys and flat
cells. -/
theorem dictMapNorm_fixpoint (r : Record)
    (hnodup : (r.map Prod.fst).Nodup)
    (hflat : ∀ p ∈ r, (Prod.snd p).isFlatCell = true) :
    dictMapNorm r [] = r := by
  rw [dictMapNorm_eq_append r [] hnodup (by simp)]
  simp only [List.nil_append]
  conv_rhs => rw [show r = r.map id from (List.map_id r).symm]
  refine List.map_congr_left ?_
  intro kv hkv
  have := normCell_of_isFlat kv.2 (hflat kv hkv)
  simp [this]

/-- Helper: without deferred keys, the customer main loop is the shared
dict-building loop. -/
theorem Customers.normMain_eq_dictMapNorm :
    ∀ (l : List (String × Value)) (out : Record),
      (∀ k ∈ l.map Prod.fst, k ∉ Customers.DEFERRED) →
      Customers.normMain l out = dictMapNorm l out := by
  intro l
  induction l with
  | nil => intro out _; rfl
  | cons p rest ih =>
    intro out h
    obtain ⟨k, v⟩ := p
    simp only [Customers.normMain, dictMapNorm]
    rw [if_neg (h k (by simp))]
    exact ih _ (fun k2 h2 => h k2 (by simp [h2]))

/-- Helper: on a record without the addresses / attributes / attribute_values
keys, normalize_customer_row degenerates to the shared flattening loop: no
split columns and no re-serialized sub-list columns. -/
theorem Customers.normalize_customer_row_of_no_deferred
    (c : Record) (m : List (Int × String))
    (hdef : ∀ k ∈ c.map Prod.fst, k ∉ Customers.DEFERRED) :
    Customers.normalize_customer_row c m = dictMapNorm c [] := by
  have haddr : getField c "addresses" = none :=
    getField_eq_none_of_not_mem c _ (fun hm => hdef _ hm (by decide))
  have hattr : getField c "attributes" = none :=
    getField_eq_none_of_not_mem c _ (fun hm => hdef _ hm (by decide))
  have hav : getField c "attribute_values" = none :=
    getField_eq_none_of_not_mem c _ (fun hm => hdef _ hm (by decide))
  simp only [Customers.normalize_customer_row, haddr, hattr, hav]
  simp [orEmptyList, Customers.normMain_eq_dictMapNorm c [] hdef]

/-- C8 counterexample: flattening is not idempotent for
customers.normalize_customer_row. A record whose addresses key holds an empty
list flattens to addresses = "[]" (a JSON string), and flattening that
already-flat record again re-serializes the value to "\"[]\"" — a double
serialization. -/
theorem claim8_counterexample :
    Customers.normalize_customer_row (Customers.normalize_customer_row c8CexCustomer []) [] ≠
      Customers.normalize_customer_row c8CexCustomer [] :=
  fun h => absurd (congrArg dumpFields h) (by decide)

/-- C8 (amended): orders.normalize_row and catalog.normalize_product are
idempotent on every record — their outputs never hold nested containers, so a
second flattening changes nothing. customers.normalize_customer_row is
idempotent on records (with distinct keys) that carry none of the deferred
keys addresses / attributes / attribute_values; when one of those keys is
present its already-serialized text is serialized again (see the
counterexample). -/
theorem claim8_amended_flatten_idempotent :
    (∀ r : Record, Orders.normalize_row (Orders.normalize_row r) = Orders.normalize_row r) ∧
      (∀ p : Record,
        Catalog.normalize_product (Catalog.normalize_product p) = Catalog.normalize_product p) ∧
      (∀ (c : Record) (m : List (Int × String)),
        (c.map Prod.fst).Nodup →
        (∀ k ∈ c.map Prod.fst, k ∉ Customers.DEFERRED) →
        Customers.normalize_customer_row (Customers.normalize_customer_row c m) m =
          Customers.normalize_customer_row c m) := by
  have key : ∀ r : Record, dictMapNorm (dictMapNorm r []) [] = dictMapNorm r [] := by
    intro r
    exact dictMapNorm_fixpoint _ (dictMapNorm_keys_nodup r [] (by simp))
      (dictMapNorm_values_flat r [] (by simp))
  refine ⟨fun r => key r, fun p => key p, ?_⟩
  intro c m hnodup hdef
  rw [Customers.normalize_customer_row_of_no_deferred c m hdef]
  have hkeys : (dictMapNorm c []).map Prod.fst = c.map Prod.fst := by
    rw [dictMapNorm_eq_append c [] hnodup (by simp)]
    simp
  rw [Customers.normalize_customer_row_of_no_deferred _ m (by rw [hkeys]; exact hdef)]
  exact key c

/-- C8 witness: the customers flattening applied twice to a deferred-free
record equals one application. -/
theorem claim8_witness :
    Customers.normalize_customer_row
        (Customers.normalize_customer_row [("id", Value.int 1)] []) [] =
      Customers.normalize_customer_row [("id", Value.int 1)] [] :=
  claim8_amended_flatten_idempotent.2.2 [("id", Value.int 1)] [] (by decide) (by decide)

/-- C9 counterexample: the final re-sort does not make the output independent
of completion order for every order list — two parent orders sharing id 1
produce rows with equal sort keys, and the stable sort keeps them in
completion order, so the two completion orders yield different outputs. -/
theorem claim9_counterexample :
    Orders.worker (fun _ => []) c9OrderA = some c9RowA ∧
      Orders.worker (fun _ => []) c9OrderB = some c9RowB ∧
      [c9RowA, c9RowB].Perm [c9RowB, c9RowA] ∧
      Orders.build_rows_one_per_order [c9RowA, c9RowB] ≠
        Orders.build_rows_one_per_order [c9RowB, c9RowA] := by
  refine ⟨rfl, rfl, List.Perm.swap _ _ _, ?_⟩
  intro h
  exact absurd (congrArg encodeRows h) (by decide)

/-- C9 (amended): when the fan-out rows carry pairwise-distinct (integer) ids,
the re-sort of build_rows_one_per_order by parent id makes the final row list
identical for any two completion orders of the per-order worker results, so
concurrency never leaks into output ordering. -/
theorem claim9_amended_completion_order_independent
    (f : Int → List Value) (orders c1 c2 : List Record)
    (h1 : c1.Perm (orders.filterMap (Orders.worker f)))
    (h2 : c2.Perm (orders.filterMap (Orders.worker f)))
    (hkeys : ∀ r ∈ orders.filterMap (Orders.worker f), (Orders.rowSortKey r).isSome = true)
    (hnodup : ((orders.filterMap (Orders.worker f)).map Orders.rowKey).Nodup) :
    Orders.build_rows_one_per_order c1 = Orders.build_rows_one_per_order c2 := by
  have hall : ∀ c : List Record, c.Perm (orders.filterMap (Orders.worker f)) →
      (c.all fun r => (Orders.rowSortKey r).isSome) = true := by
    intro c hc
    rw [List.all_eq_true]
    intro r hr
    exact hkeys r (hc.mem_iff.mp hr)
  have hb1 : Orders.build_rows_one_per_order c1 =
      List.insertionSort (fun a b => Orders.rowKey a ≤ Orders.rowKey b) c1 := by
    simp [Orders.build_rows_one_per_order, hall c1 h1]
  have hb2 : Orders.build_rows_one_per_order c2 =
      List.insertionSort (fun a b => Orders.rowKey a ≤ Orders.rowKey b) c2 := by
    simp [Orders.build_rows_one_per_order, hall c2 h2]
  have hst : ∀ c : List Record, c.Perm (orders.filterMap (Orders.worker f)) →
      List.Sorted (fun a b => Orders.rowKey a < Orders.rowKey b)
        (List.insertionSort (fun a b => Orders.rowKey a ≤ Orders.rowKey b) c) := by
    intro c hc
    haveI : IsTotal Record (fun a b => Orders.rowKey a ≤ Orders.rowKey b) :=
      ⟨fun a b => le_total _ _⟩
    haveI : IsTrans Record (fun a b => Orders.rowKey a ≤ Orders.rowKey b) :=
      ⟨fun a b c hab hbc => le_trans hab hbc⟩
    have hsorted := List.sorted_insertionSort (fun a b => Orders.rowKey a ≤ Orders.rowKey b) c
    have hperm := List.perm_insertionSort (fun a b => Orders.rowKey a ≤ Orders.rowKey b) c
    have hnd : (List.map Orders.rowKey
        (List.insertionSort (fun a b => Orders.rowKey a ≤ Orders.rowKey b) c)).Nodup :=
      (((hperm.trans hc).map Orders.rowKey).symm).nodup hnodup
    have hpair : List.Pairwise (fun a b => Orders.rowKey a ≠ Orders.rowKey b)
        (List.insertionSort (fun a b => Orders.rowKey a ≤ Orders.rowKey b) c) :=
      List.pairwise_map.mp hnd
    exact List.Pairwise.imp₂ (fun a b hle hne => lt_of_le_of_ne hle hne) hsorted hpair
  haveI : IsAntisymm Record (fun a b => Orders.rowKey a < Orders.rowKey b) :=
    ⟨fun a b ha hb => absurd (lt_trans ha hb) (lt_irrefl _)⟩
  have hperm12 :
      (List.insertionSort (fun a b => Orders.rowKey a ≤ Orders.rowKey b) c1).Perm
        (List.insertionSort (fun a b => Orders.rowKey a ≤ Orders.rowKey b) c2) :=
    ((List.perm_insertionSort _ c1).trans (h1.trans h2.symm)).trans
      (List.perm_insertionSort _ c2).symm
  rw [hb1, hb2]
  exact List.eq_of_perm_of_sorted hperm12 (hst c1 h1) (hst c2 h2)

/-- C9 witness: two orders with distinct ids 1 and 2; both completion orders
of the worker results sort to the same final row list. -/
theorem claim9_witness :
    Orders.build_rows_one_per_order
        [[("id", Value.int 2), ("products_json", Value.str "[]")], c9RowA] =
      Orders.build_rows_one_per_order
        [c9RowA, [("id", Value.int 2), ("products_json", Value.str "[]")]] := by
  have hS : ([c9OrderA, [("id", Value.int 2)]].filterMap (Orders.worker (fun _ => []))) =
      [c9RowA, [("id", Value.int 2), ("products_json", Value.str "[]")]] := rfl
  exact claim9_amended_completion_order_independent (fun _ => [])
    [c9OrderA, [("id", Value.int 2)]] _ _
    (by rw [hS]; exact List.Perm.swap _ _ _)
    (by rw [hS])
    (by decide)
    (by decide)
